import Mathlib

/-!
Verification of the clonet-audit survey widget.

The development shallowly embeds the two core artifacts of the repository:
the wizard component (`src/unnamed/part_000`: validation rules, the
navigation chains of the Previous / Skip / Next buttons, the multi-select
toggle and the submit gate) and the API route (`src/pages/api/submit.ts`:
the Telegram formatter and the request handler).  JavaScript strings are
modelled as Lean `String` / `List Char`; JavaScript objects used as string
maps are modelled as association lists; the external effects of the handler
(the JSON body parse and the Telegram fetch) are supplied as explicit
parameters describing their outcome.
-/

/-- JavaScript `value.trim()`: the string with leading and trailing
whitespace removed (whitespace modelled by `Char.isWhitespace`). -/
def jsTrim (value : String) : String :=
  (((value.data.dropWhile Char.isWhitespace).reverse.dropWhile Char.isWhitespace).reverse).asString

/-- A character admitted by the `[^\s@]` classes of the email regex:
neither whitespace nor `@`. -/
def emailAtomChar (ch : Char) : Bool :=
  !ch.isWhitespace && !(ch == '@')

/-- Backtracking matcher for a regex fragment `p+` followed by a
continuation `k` on the rest of the input. -/
def plusThen (p : Char → Bool) (k : List Char → Bool) : List Char → Bool
  | [] => false
  | ch :: rest => p ch && (k rest || plusThen p k rest)

/-- Matcher for a literal-character position of the regex followed by a
continuation `k`. -/
def charThen (target : Char) (k : List Char → Bool) : List Char → Bool
  | [] => false
  | ch :: rest => ch == target && k rest

/-- The regex fragment `[^\s@]+$` (after the dot of the domain). -/
def emailAfterDot (l : List Char) : Bool :=
  plusThen emailAtomChar List.isEmpty l

/-- The regex fragment `[^\s@]+\.[^\s@]+$` (the domain part). -/
def emailDomain (l : List Char) : Bool :=
  plusThen emailAtomChar (charThen '.' emailAfterDot) l

/-- The full anchored regex `^[^\s@]+@[^\s@]+\.[^\s@]+$` of `isValidEmail`
(`src/unnamed/part_000` line 48). -/
def emailRegexTest (l : List Char) : Bool :=
  plusThen emailAtomChar (charThen '@' emailDomain) l

/-- `isValidEmail` (`src/unnamed/part_000` lines 46-50): an empty trimmed
value is rejected, otherwise the trimmed value is tested against the
regex `^[^\s@]+@[^\s@]+\.[^\s@]+$`. -/
def isValidEmail (value : String) : Bool :=
  if jsTrim value == "" then false
  else emailRegexTest (jsTrim value).data

/-- `getPhoneDigits` (`src/unnamed/part_000` lines 52-54):
`value.replace(/\D/g, "").slice(0, 10)` - keep the digit characters and
truncate to the first ten. -/
def getPhoneDigits (value : String) : String :=
  ((value.data.filter Char.isDigit).take 10).asString

/-- `isValidPhone` (`src/unnamed/part_000` lines 63-65). -/
def isValidPhone (value : String) : Bool :=
  (getPhoneDigits value).length == 10

/-- Claim-side (from the spec's words, not the source): the digit
characters of the string after stripping every non-digit, without any
truncation. -/
def strippedDigits (value : String) : List Char :=
  value.data.filter Char.isDigit

/-- Claim-side reading of the email rule as C9 states it: the trimmed
string is `local@domain` - no whitespace, exactly one `@`, a non-empty
local part, and a non-empty domain containing at least one dot. -/
def emailClaimedCore (l : List Char) : Bool :=
  l.all (fun ch => !ch.isWhitespace) &&
  (l.count '@' == 1) &&
  !(l.takeWhile (fun ch => !(ch == '@'))).isEmpty &&
  (!((l.dropWhile (fun ch => !(ch == '@'))).drop 1).isEmpty &&
    ((l.dropWhile (fun ch => !(ch == '@'))).drop 1).contains '.')

/-- Claim-side reading of the email rule applied to the trimmed value. -/
def emailClaimedValid (value : String) : Bool :=
  emailClaimedCore (jsTrim value).data

/-- Amended email characterization: as claimed, except that the domain
must contain a dot with at least one character between the `@` and the
dot and at least one character after the dot (the dot is interior to the
domain). -/
def emailAmendedCore (l : List Char) : Bool :=
  l.all (fun ch => !ch.isWhitespace) &&
  (l.count '@' == 1) &&
  !(l.takeWhile (fun ch => !(ch == '@'))).isEmpty &&
  ((((l.dropWhile (fun ch => !(ch == '@'))).drop 1).drop 1).dropLast.contains '.')

/-- Amended email characterization applied to the trimmed value. -/
def emailAmendedValid (value : String) : Bool :=
  emailAmendedCore (jsTrim value).data

/-- The wizard's step tags (`src/unnamed/part_000` lines 3-18). -/
inductive Step
  | intro
  | q1
  | q2
  | q3
  | q4
  | q5
  | q6
  | q7
  | q8
  | q9
  | loading
  | results
  | contact
  | final
  | done
deriving DecidableEq, Fintype, Repr

/-- The `setStep` target of the Previous button's onClick chain
(`src/unnamed/part_000` lines 841-867); `none` when the chain performs no
`setStep` for the step. -/
def prevTarget : Step → Option Step
  | .q1 => some .intro
  | .q2 => some .q1
  | .q3 => some .q2
  | .q4 => some .q3
  | .q5 => some .q4
  | .q6 => some .q5
  | .q7 => some .q6
  | .q8 => some .q7
  | .q9 => some .q8
  | .results => some .q9
  | .contact => some .q9
  | .final => some .contact
  | _ => none

/-- The `setStep` target of the Skip button's onClick chain
(`src/unnamed/part_000` lines 877-889). -/
def skipTarget : Step → Option Step
  | .q1 => some .q2
  | .q2 => some .q3
  | .q3 => some .q4
  | .q4 => some .q5
  | .q5 => some .q6
  | .q6 => some .q7
  | .q7 => some .q8
  | .q8 => some .q9
  | .q9 => some .loading
  | .results => some .contact
  | .contact => some .final
  | _ => none

/-- The `setStep` target of the Next button's onClick chain
(`src/unnamed/part_000` lines 899-913).  On `contact` the chain invokes
`handleSubmit` instead of a direct `setStep`, modelled separately by
`handleSubmit` below, so the direct navigation target is `none` there. -/
def nextTarget : Step → Option Step
  | .q1 => some .q2
  | .q2 => some .q3
  | .q3 => some .q4
  | .q4 => some .q5
  | .q5 => some .q6
  | .q6 => some .q7
  | .q7 => some .q8
  | .q8 => some .q9
  | .q9 => some .loading
  | .results => some .contact
  | .final => some .done
  | _ => none

/-- Whether the footer with the navigation buttons renders on a step:
`intro` renders its own empty footer, `loading` returns early with only
the animation, and `done` hides the footer (`src/unnamed/part_000` lines
287, 406, 835). -/
def footerShown (s : Step) : Bool :=
  !(s == .intro) && !(s == .loading) && !(s == .done)

/-- Whether the Skip control renders inside the footer
(`src/unnamed/part_000` line 873). -/
def skipButtonShown (s : Step) : Bool :=
  footerShown s && !(s == .contact) && !(s == .final)

/-- The state touched by `handleMultiToggle`: the `q2` multi-select answer
and the error message. -/
structure MultiState where
  q2 : List String
  errors : Option String
deriving DecidableEq, Repr

/-- `handleMultiToggle` (`src/unnamed/part_000` lines 184-197):
`setErrors(null)`, then remove the value when present, reject with an
error when three values are already selected, otherwise append it. -/
def handleMultiToggle (value : String) (st : MultiState) : MultiState :=
  let st1 : MultiState := { st with errors := none }
  if st1.q2.contains value then
    { st1 with q2 := st1.q2.filter (fun v => !(v == value)) }
  else if st1.q2.length ≥ 3 then
    { st1 with errors := some "You can select up to 3 areas." }
  else
    { st1 with q2 := st1.q2 ++ [value] }

/-- The contact fields of the client form (`src/unnamed/part_000` lines
82-87). -/
structure ContactState where
  firstName : String
  email : String
  phone : String
  company : String
deriving DecidableEq, Repr

/-- Outcome of the validation prefix of `handleSubmit`: the surfaced
error, and whether the `submitToBackend` request is issued. -/
structure SubmitAttempt where
  errors : Option String
  requestIssued : Bool
deriving DecidableEq, Repr

/-- The validation gate of `handleSubmit` (`src/unnamed/part_000` lines
199-230): the four checks in source order, each early-returning with its
message; only when all pass is `setErrors(null)` reached and the backend
request issued. -/
def handleSubmit (c : ContactState) (consent : Bool) : SubmitAttempt :=
  if c.firstName == "" || c.email == "" || c.phone == "" then
    { errors := some "Please complete all required fields.", requestIssued := false }
  else if !(isValidEmail c.email) then
    { errors := some "Please enter a valid email address.", requestIssued := false }
  else if !(isValidPhone c.phone) then
    { errors := some "Please enter a valid 10-digit phone number.", requestIssued := false }
  else if !consent then
    { errors := some "Please confirm you agree to be contacted.", requestIssued := false }
  else
    { errors := none, requestIssued := true }

/-- A value of the `answers` map sent to the API: a single selection /
free text (string) or a multi-selection (array of strings). -/
inductive AnswerValue
  | str (s : String)
  | multi (items : List String)
deriving DecidableEq, Repr

/-- `QUESTION_LABELS` (`src/pages/api/submit.ts` lines 3-14). -/
def QUESTION_LABELS : List (String × String) :=
  [("industry", "Industry"),
   ("q1", "Operations setup"),
   ("q2", "Inefficient areas"),
   ("q3", "Custom tools"),
   ("q4", "Pricing/quoting importance"),
   ("q5", "When something breaks"),
   ("q6", "Ideal system (optional)"),
   ("q7", "Open to custom systems"),
   ("q8", "Company size"),
   ("q9", "Revenue range")]

/-- The `keys` array iterated by `formatPayloadForTelegram`
(`src/pages/api/submit.ts` line 29). -/
def formatKeys : List String :=
  ["industry", "q1", "q2", "q3", "q4", "q5", "q6", "q7", "q8", "q9"]

/-- `QUESTION_LABELS[key]` as interpolated into the template string
(an absent key would interpolate as `undefined`; every key of
`formatKeys` is present). -/
def labelFor (key : String) : String :=
  (QUESTION_LABELS.lookup key).getD "undefined"

/-- The step header line pushed for the i-th key (0-based):
"——— Step i+1: label ———". -/
def stepHeaderLine (i : Nat) (key : String) : String :=
  "——— Step " ++ toString (i + 1) ++ ": " ++ labelFor key ++ " ———"

/-- The single value line pushed for a question: `—` when the value is
absent or the empty string, the `", "`-join for an array, otherwise the
string itself (`src/pages/api/submit.ts` lines 35-40). -/
def renderAnswerLine (value : Option AnswerValue) : String :=
  match value with
  | none => "—"
  | some (.str s) => if s == "" then "—" else s
  | some (.multi items) => String.intercalate ", " items

/-- JavaScript `x || "—"` over an optional string field: the em-dash
placeholder for an absent or empty value. -/
def orDash (field : Option String) : String :=
  match field with
  | none => "—"
  | some s => if s == "" then "—" else s

/-- The initial `lines` array of `formatPayloadForTelegram`
(`src/pages/api/submit.ts` lines 19-27): banner and contact block. -/
def contactHeaderLines (contact : List (String × String)) : List String :=
  ["🔔 New Pre-Audit Submission",
   "",
   "——— Contact ———",
   "Name: " ++ orDash (contact.lookup "firstName"),
   "Email: " ++ orDash (contact.lookup "email"),
   "Phone: " ++ orDash (contact.lookup "phone"),
   "Company: " ++ orDash (contact.lookup "company"),
   ""]

/-- The `keys.forEach((key, i) => ...)` loop (`src/pages/api/submit.ts`
lines 30-42): for each key, push the step header, the value line and a
blank line. -/
def questionLines (answers : List (String × AnswerValue)) : Nat → List String → List String
  | _, [] => []
  | i, key :: rest =>
    stepHeaderLine i key :: renderAnswerLine (answers.lookup key) :: "" ::
      questionLines answers (i + 1) rest

/-- The full `lines` array built by `formatPayloadForTelegram`. -/
def formatLines (answers : List (String × AnswerValue))
    (contact : List (String × String)) : List String :=
  contactHeaderLines contact ++ questionLines answers 0 formatKeys

/-- `formatPayloadForTelegram` (`src/pages/api/submit.ts` lines 16-44):
`lines.join("\n").trimEnd()`. -/
def formatPayloadForTelegram (answers : List (String × AnswerValue))
    (contact : List (String × String)) : String :=
  (String.intercalate "\n" (formatLines answers contact)).trimRight

/-- The step header lines the formatter actually produces, written out. -/
def fixedStepHeaders : List String :=
  ["——— Step 1: Industry ———",
   "——— Step 2: Operations setup ———",
   "——— Step 3: Inefficient areas ———",
   "——— Step 4: Custom tools ———",
   "——— Step 5: Pricing/quoting importance ———",
   "——— Step 6: When something breaks ———",
   "——— Step 7: Ideal system (optional) ———",
   "——— Step 8: Open to custom systems ———",
   "——— Step 9: Company size ———",
   "——— Step 10: Revenue range ———"]

/-- The nine step headers the claim C2 describes (one block per q1..q9,
numbered from 1, each with its fixed label). -/
def claimedNineHeaders : List String :=
  ["——— Step 1: Operations setup ———",
   "——— Step 2: Inefficient areas ———",
   "——— Step 3: Custom tools ———",
   "——— Step 4: Pricing/quoting importance ———",
   "——— Step 5: When something breaks ———",
   "——— Step 6: Ideal system (optional) ———",
   "——— Step 7: Open to custom systems ———",
   "——— Step 8: Company size ———",
   "——— Step 9: Revenue range ———"]

/-- The header lines of a key list starting at index `n` (one per key). -/
def headerList (n : Nat) : List String → List String
  | [] => []
  | key :: rest => stepHeaderLine n key :: headerList (n + 1) rest

/-- A parsed request body: the `answers` and `contact` fields when
present (`body.answers ?? {}`, `body.contact ?? {}`). -/
structure BodyObj where
  answers : Option (List (String × AnswerValue))
  contact : Option (List (String × String))

/-- `req.body` as the handler sees it (`src/pages/api/submit.ts` lines
70-82).  A string body carries the outcome of `JSON.parse`: `none` when
the parse throws or yields a non-object primitive (either way the
`?? {}` fallbacks leave both maps empty), `strNull` when it yields JSON
`null` (then `body.answers` throws and the outer catch answers). -/
inductive RawBody
  | null
  | str (parsed : Option BodyObj)
  | strNull
  | obj (o : BodyObj)

/-- Outcome of the Telegram `fetch` (`src/pages/api/submit.ts` lines
87-108): the fetch rejects, the response body is not JSON, or it is JSON
whose `ok` field is the given optional boolean. -/
inductive TelegramOutcome
  | fetchError
  | nonJson
  | json (ok : Option Bool)
deriving DecidableEq, Repr

/-- The JSON body of the handler's response. -/
inductive RespBody
  | health (telegramConfigured : Bool)
  | methodNotAllowed
  | submit (ok : Bool) (sent : Bool)
deriving DecidableEq, Repr

/-- What a call of the handler produces: HTTP status, response body, and
the text POSTed to the Telegram API when a fetch is attempted (`none`
when no outbound call is made). -/
structure HandlerResult where
  status : Nat
  body : RespBody
  telegramRequest : Option String
deriving DecidableEq, Repr

/-- JavaScript truthiness of a `process.env` entry: set and non-empty. -/
def isSetEnv : Option String → Bool
  | none => false
  | some s => !(s == "")

/-- Whether the `fetch` outcome counts as delivered: `!data.ok` is false
exactly when the parsed JSON has `ok === true`. -/
def tgDelivered : TelegramOutcome → Bool
  | .json (some true) => true
  | _ => false

/-- The delivery attempt and response of the configured POST path
(`src/pages/api/submit.ts` lines 87-114): the fetch is issued with the
formatted text; whatever its outcome, the response is 200
`{ok:true, sent}` with `sent` reporting delivery. -/
def handlerDeliver (text : String) (tg : TelegramOutcome) : HandlerResult :=
  { status := 200, body := .submit true (tgDelivered tg), telegramRequest := some text }

/-- The body object the POST path resolves from `req.body`
(`src/pages/api/submit.ts` lines 70-84), for the bodies that reach the
fetch: `null` and unparsable or non-object strings fall back to empty
maps, an object keeps its fields with `?? {}` fallbacks. -/
def resolvedBody : RawBody → BodyObj
  | .null => ⟨none, none⟩
  | .str parsed => parsed.getD ⟨none, none⟩
  | .strNull => ⟨none, none⟩
  | .obj o => o

/-- The API route handler (`src/pages/api/submit.ts` lines 46-115):
GET health probe, 405 for other non-POST methods, degraded 200 response
without I/O when either secret is unset, otherwise resolve the body,
format it and attempt the single Telegram delivery, always answering
200 `{ok:true, sent}`.  A string body parsing to JSON `null` makes
`body.answers` throw; the outer catch then answers 200
`{ok:true, sent:false}` before any fetch. -/
def handler (method : String) (token chatId : Option String)
    (raw : RawBody) (tg : TelegramOutcome) : HandlerResult :=
  if method == "GET" then
    { status := 200, body := .health (isSetEnv token && isSetEnv chatId), telegramRequest := none }
  else if !(method == "POST") then
    { status := 405, body := .methodNotAllowed, telegramRequest := none }
  else if !(isSetEnv token) || !(isSetEnv chatId) then
    { status := 200, body := .submit true false, telegramRequest := none }
  else
    match raw with
    | .strNull =>
      { status := 200, body := .submit true false, telegramRequest := none }
    | raw =>
      let o := resolvedBody raw
      handlerDeliver (formatPayloadForTelegram (o.answers.getD []) (o.contact.getD [])) tg

/-! Helper lemmas. -/

/-- The length of a packed character list is its list length. -/
theorem asString_length (l : List Char) : (List.asString l).length = l.length := rfl

/-- A toggle of the multi-select never grows the selection past three. -/
theorem handleMultiToggle_len_le (value : String) (st : MultiState)
    (h : st.q2.length ≤ 3) : (handleMultiToggle value st).q2.length ≤ 3 := by
  obtain ⟨q2, e⟩ := st
  by_cases hc : value ∈ q2
  · simp [handleMultiToggle, hc]
    exact le_trans (List.length_filter_le _ _) h
  · by_cases h3 : 3 ≤ q2.length
    · simp [handleMultiToggle, hc, h3]
      exact h
    · simp [handleMultiToggle, hc, h3]
      omega

/-- Folding toggles preserves the three-element bound. -/
theorem handleMultiToggle_foldl_le (ops : List String) :
    ∀ st : MultiState, st.q2.length ≤ 3 →
      ((ops.foldl (fun acc v => handleMultiToggle v acc) st).q2.length ≤ 3) := by
  induction ops with
  | nil => intro st h; simpa using h
  | cons v rest ih =>
    intro st h
    exact ih _ (handleMultiToggle_len_le v st h)

/-! Theorems for the claims. -/

/-- C1: `isValidPhone` is not equivalent to "exactly 10 digits after
stripping non-digits": a string with eleven digits strips to eleven
digits yet is accepted, because `getPhoneDigits` truncates to ten before
the length test. -/
theorem c1_phone_counterexample :
    isValidPhone "12345678901" = true ∧ (strippedDigits "12345678901").length ≠ 10 := by
  decide

/-- C1 (amended): `isValidPhone` holds iff stripping all non-digit
characters yields at least ten digits; in particular "555123" is invalid
and "5551234567" is valid regardless of inserted punctuation. -/
theorem c1_phone_amended :
    (∀ value : String, isValidPhone value = true ↔ 10 ≤ (strippedDigits value).length) ∧
    isValidPhone "555123" = false ∧
    isValidPhone "5551234567" = true ∧
    isValidPhone "(555) 123-4567" = true ∧
    isValidPhone "555-123-4567" = true := by
  refine ⟨fun value => ?_, by decide, by decide, by decide, by decide⟩
  show ((getPhoneDigits value).length == 10) = true ↔ _
  rw [getPhoneDigits, asString_length, List.length_take]
  simp [strippedDigits, inf_eq_left]

/-- C3: the claim that `results` has no outbound navigation edges is
false: the Next button's chain maps `results` to `contact`. -/
theorem c3_results_counterexample :
    nextTarget Step.results = some Step.contact ∧ Step.contact ≠ Step.results := by
  decide

/-- C3 (amended): no navigation action of any step targets `results`
(it has no inbound edges), but `results` does have outbound edges, all
available there: Previous goes to `q9`, Next and Skip go to `contact`. -/
theorem c3_results_amended :
    (∀ s : Step, prevTarget s ≠ some Step.results ∧ nextTarget s ≠ some Step.results ∧
      skipTarget s ≠ some Step.results) ∧
    prevTarget Step.results = some Step.q9 ∧
    nextTarget Step.results = some Step.contact ∧
    skipTarget Step.results = some Step.contact ∧
    footerShown Step.results = true ∧ skipButtonShown Step.results = true := by
  decide

/-- C4: toggling a fourth value into a full multi-select leaves the three
selections unchanged and surfaces the error message instead of throwing,
and any sequence of toggles from the empty selection keeps the size at
most three. -/
theorem c4_multi_select_bound :
    (∀ (st : MultiState) (value : String), st.q2.length = 3 → st.q2.contains value = false →
      handleMultiToggle value st =
        { q2 := st.q2, errors := some "You can select up to 3 areas." }) ∧
    (∀ ops : List String,
      ((ops.foldl (fun acc v => handleMultiToggle v acc) ⟨[], none⟩).q2.length ≤ 3)) := by
  constructor
  · intro st value h3 hc
    obtain ⟨q2, e⟩ := st
    have hm : value ∉ q2 := by simpa using hc
    simp [handleMultiToggle, hm, h3]
  · intro ops
    exact handleMultiToggle_foldl_le ops ⟨[], none⟩ (by simp)

/-- C5: the submit gate checks required fields, email, phone, then
consent, in that priority order; the first failing check alone produces
the surfaced message, and the backend request is issued exactly when all
four pass. -/
theorem c5_submit_priority :
    ∀ (c : ContactState) (consent : Bool),
      ((c.firstName == "" || c.email == "" || c.phone == "") = true →
        handleSubmit c consent =
          { errors := some "Please complete all required fields.", requestIssued := false }) ∧
      ((c.firstName == "" || c.email == "" || c.phone == "") = false →
        isValidEmail c.email = false →
        handleSubmit c consent =
          { errors := some "Please enter a valid email address.", requestIssued := false }) ∧
      ((c.firstName == "" || c.email == "" || c.phone == "") = false →
        isValidEmail c.email = true → isValidPhone c.phone = false →
        handleSubmit c consent =
          { errors := some "Please enter a valid 10-digit phone number.", requestIssued := false }) ∧
      ((c.firstName == "" || c.email == "" || c.phone == "") = false →
        isValidEmail c.email = true → isValidPhone c.phone = true → consent = false →
        handleSubmit c consent =
          { errors := some "Please confirm you agree to be contacted.", requestIssued := false }) ∧
      ((handleSubmit c consent).requestIssued = true ↔
        ((c.firstName == "" || c.email == "" || c.phone == "") = false ∧
          isValidEmail c.email = true ∧ isValidPhone c.phone = true ∧ consent = true)) ∧
      ((handleSubmit c consent).requestIssued = true → (handleSubmit c consent).errors = none) := by
  intro c consent
  refine ⟨?_, ?_, ?_, ?_, ?_, ?_⟩ <;>
    cases hreq : (c.firstName == "" || c.email == "" || c.phone == "") <;>
    cases hem : isValidEmail c.email <;>
    cases hph : isValidPhone c.phone <;>
    cases consent <;>
    simp [handleSubmit, hreq, hem, hph]

/-- C8: Previous from `contact` goes to `q9`, and `loading` is never the
target of the Previous chain from any step. -/
theorem c8_previous_skips_loading :
    prevTarget Step.contact = some Step.q9 ∧
    (∀ s : Step, prevTarget s ≠ some Step.loading) := by
  decide

/-- C6: with either Telegram secret unset (absent or empty), a POST is
answered 200 `{ok:true, sent:false}` and no outbound request is made. -/
theorem c6_secrets_missing (token chatId : Option String) (raw : RawBody)
    (tg : TelegramOutcome) (h : isSetEnv token = false ∨ isSetEnv chatId = false) :
    handler "POST" token chatId raw tg =
      { status := 200, body := RespBody.submit true false, telegramRequest := none } := by
  have h1 : (("POST" : String) == "GET") = false := by decide
  have h2 : (("POST" : String) == "POST") = true := by decide
  rcases h with h | h <;> simp [handler, h1, h2, h]

/-- C6 witness: concrete run with the token unset. -/
theorem c6_secrets_missing_witness :
    handler "POST" none (some "chat") RawBody.null TelegramOutcome.fetchError =
      { status := 200, body := RespBody.submit true false, telegramRequest := none } :=
  c6_secrets_missing none (some "chat") RawBody.null TelegramOutcome.fetchError (Or.inl rfl)

/-- C7: with both secrets set, every failed delivery (fetch rejection,
non-JSON response, or a body whose `ok` is not `true`) still yields 200
`{ok:true, sent:false}`; and whatever the delivery outcome, the response
is 200 with `ok:true`, delivery reported only through `sent`. -/
theorem c7_lenient_delivery_policy :
    (∀ (token chatId : Option String) (raw : RawBody) (tg : TelegramOutcome),
      isSetEnv token = true → isSetEnv chatId = true → tgDelivered tg = false →
      (handler "POST" token chatId raw tg).status = 200 ∧
      (handler "POST" token chatId raw tg).body = RespBody.submit true false) ∧
    (∀ (token chatId : Option String) (raw : RawBody) (tg : TelegramOutcome),
      isSetEnv token = true → isSetEnv chatId = true →
      (handler "POST" token chatId raw tg).status = 200 ∧
      ∃ sent : Bool, (handler "POST" token chatId raw tg).body = RespBody.submit true sent) := by
  have h1 : (("POST" : String) == "GET") = false := by decide
  have h2 : (("POST" : String) == "POST") = true := by decide
  constructor
  · intro token chatId raw tg ht hc htg
    cases raw <;> simp [handler, handlerDeliver, h1, h2, ht, hc, htg]
  · intro token chatId raw tg ht hc
    cases raw <;> simp [handler, handlerDeliver, h1, h2, ht, hc]

/-- C10: with both secrets set, a null body, an unparsable string body,
or an object missing `answers` or `contact` still formats with empty
maps for the missing parts and attempts delivery; and every POST is
answered with status 200, whatever the body and delivery outcome. -/
theorem c10_malformed_body_tolerated :
    (∀ (token chatId : Option String) (tg : TelegramOutcome),
      isSetEnv token = true → isSetEnv chatId = true →
      (handler "POST" token chatId RawBody.null tg).telegramRequest =
          some (formatPayloadForTelegram [] []) ∧
      (handler "POST" token chatId (RawBody.str none) tg).telegramRequest =
          some (formatPayloadForTelegram [] []) ∧
      (∀ a, (handler "POST" token chatId (RawBody.obj ⟨some a, none⟩) tg).telegramRequest =
          some (formatPayloadForTelegram a [])) ∧
      (∀ co, (handler "POST" token chatId (RawBody.obj ⟨none, some co⟩) tg).telegramRequest =
          some (formatPayloadForTelegram [] co))) ∧
    (∀ (token chatId : Option String) (raw : RawBody) (tg : TelegramOutcome),
      (handler "POST" token chatId raw tg).status = 200) := by
  have h1 : (("POST" : String) == "GET") = false := by decide
  have h2 : (("POST" : String) == "POST") = true := by decide
  constructor
  · intro token chatId tg ht hc
    simp [handler, handlerDeliver, resolvedBody, h1, h2, ht, hc]
  · intro token chatId raw tg
    cases htok : isSetEnv token <;> cases hcid : isSetEnv chatId <;> cases raw <;>
      simp [handler, handlerDeliver, h1, h2, htok, hcid]

/-! Formatter lemmas for C2. -/

/-- The header of each question block is kept, in order, when the value
and blank lines are interleaved. -/
theorem headerList_sublist (answers : List (String × AnswerValue)) :
    ∀ (keys : List String) (n : Nat),
      (headerList n keys).Sublist (questionLines answers n keys) := by
  intro keys
  induction keys with
  | nil => intro n; simp [headerList, questionLines]
  | cons key rest ih =>
    intro n
    exact List.Sublist.cons₂ _ (List.Sublist.cons _ (List.Sublist.cons _ (ih (n + 1))))

/-- The step headers the formatter writes are the ten fixed ones. -/
theorem fixedStepHeaders_eq : fixedStepHeaders = headerList 0 formatKeys := by decide

/-- Each key contributes exactly the three pushed lines. -/
theorem questionLines_length (answers : List (String × AnswerValue)) :
    ∀ (keys : List String) (n : Nat),
      (questionLines answers n keys).length = 3 * keys.length := by
  intro keys
  induction keys with
  | nil => intro n; simp [questionLines]
  | cons key rest ih =>
    intro n
    simp [questionLines, ih (n + 1)]
    omega

/-- A contiguous run of a list stays contiguous after fronting an
element. -/
theorem isInfixCons {α : Type} (a : α) {l₁ l₂ : List α} (h : l₁ <:+: l₂) :
    l₁ <:+: a :: l₂ := by
  obtain ⟨s, t, rfl⟩ := h
  exact ⟨a :: s, t, rfl⟩

/-- A contiguous run of a list stays contiguous after prepending a
list. -/
theorem isInfixAppendLeft {α : Type} (s0 : List α) {l₁ l₂ : List α} (h : l₁ <:+: l₂) :
    l₁ <:+: s0 ++ l₂ := by
  obtain ⟨s, t, rfl⟩ := h
  exact ⟨s0 ++ s, t, by simp⟩

/-- The i-th key's header and value line appear contiguously in the
question lines. -/
theorem questionLines_block (answers : List (String × AnswerValue)) :
    ∀ (keys : List String) (n i : Nat) (key : String),
      keys[i]? = some key →
      [stepHeaderLine (n + i) key, renderAnswerLine (answers.lookup key)] <:+:
        questionLines answers n keys := by
  intro keys
  induction keys with
  | nil => intro n i key h; simp at h
  | cons k rest ih =>
    intro n i key h
    cases i with
    | zero =>
      simp at h
      subst h
      refine ⟨[], "" :: questionLines answers (n + 1) rest, ?_⟩
      simp [questionLines]
    | succ j =>
      have h' := ih (n + 1) j key (by simpa using h)
      have hn : n + 1 + j = n + (j + 1) := by omega
      rw [hn] at h'
      exact isInfixCons _ (isInfixCons _ (isInfixCons _ h'))

/-- C2: the formatter does not emit nine question blocks: the payload for
empty answers and contact contains the extra block "Step 1: Industry",
a tenth block "Step 10: Revenue range", and no block headed
"Step 1: Operations setup" as the nine-block numbering would demand. -/
theorem c2_formatter_counterexample :
    "——— Step 1: Industry ———" ∈ formatLines [] [] ∧
    "——— Step 10: Revenue range ———" ∈ formatLines [] [] ∧
    "——— Step 1: Operations setup ———" ∉ formatLines [] [] ∧
    (formatLines [] []).filter (fun l => fixedStepHeaders.contains l) ≠ claimedNineHeaders := by
  decide

/-- C2 (amended): for every answers and contact map, the output lines
contain the ten fixed step headers (industry then q1..q9, each with its
fixed label) in order, consist of exactly the 8 contact lines plus 10
blocks of 3 lines, and a key whose answer is unset or the empty string
has the placeholder line "—" directly under its header. -/
theorem c2_formatter_amended :
    ∀ (answers : List (String × AnswerValue)) (contact : List (String × String)),
      fixedStepHeaders.Sublist (formatLines answers contact) ∧
      (formatLines answers contact).length = 38 ∧
      (∀ (i : Nat) (key : String), formatKeys[i]? = some key →
        (answers.lookup key = none ∨ answers.lookup key = some (AnswerValue.str "")) →
        [stepHeaderLine i key, "—"] <:+: formatLines answers contact) := by
  intro answers contact
  refine ⟨?_, ?_, ?_⟩
  · rw [fixedStepHeaders_eq]
    exact (headerList_sublist answers formatKeys 0).trans (List.sublist_append_right _ _)
  · show (contactHeaderLines contact ++ questionLines answers 0 formatKeys).length = 38
    rw [List.length_append, questionLines_length]
    simp [contactHeaderLines, formatKeys]
  · intro i key hk hval
    have hr : renderAnswerLine (answers.lookup key) = "—" := by
      rcases hval with h | h <;> simp [h, renderAnswerLine]
    have hb := questionLines_block answers formatKeys 0 i key hk
    rw [Nat.zero_add, hr] at hb
    exact isInfixAppendLeft _ hb

/-! Email regex characterization for C9. -/

/-- What the backtracking `p+`-matcher accepts: a non-empty prefix of
characters satisfying `p` whose remainder the continuation accepts. -/
theorem plusThen_eq_true (p : Char → Bool) (k : List Char → Bool) :
    ∀ l : List Char, plusThen p k l = true ↔
      ∃ l₁ l₂, l = l₁ ++ l₂ ∧ l₁ ≠ [] ∧ (∀ ch ∈ l₁, p ch = true) ∧ k l₂ = true := by
  intro l
  induction l with
  | nil =>
    constructor
    · intro h
      simp [plusThen] at h
    · rintro ⟨l₁, l₂, heq, hne, -, -⟩
      cases l₁ with
      | nil => exact absurd rfl hne
      | cons a as => simp at heq
  | cons ch rest ih =>
    constructor
    · intro h
      rw [plusThen, Bool.and_eq_true, Bool.or_eq_true] at h
      obtain ⟨hp, hk | hrec⟩ := h
      · exact ⟨[ch], rest, rfl, by simp, by simpa using hp, hk⟩
      · obtain ⟨l₁, l₂, heq, hne, hall, hk⟩ := ih.mp hrec
        refine ⟨ch :: l₁, l₂, by rw [heq]; rfl, by simp, ?_, hk⟩
        intro c hc
        rcases List.mem_cons.mp hc with rfl | hc
        · exact hp
        · exact hall c hc
    · rintro ⟨l₁, l₂, heq, hne, hall, hk⟩
      cases l₁ with
      | nil => exact absurd rfl hne
      | cons a as =>
        simp only [List.cons_append, List.cons.injEq] at heq
        obtain ⟨rfl, rfl⟩ := heq
        rw [plusThen, Bool.and_eq_true, Bool.or_eq_true]
        refine ⟨hall _ (List.mem_cons_self _ _), ?_⟩
        cases as with
        | nil => exact Or.inl (by simpa using hk)
        | cons b bs =>
          refine Or.inr (ih.mpr ⟨b :: bs, l₂, rfl, by simp, ?_, hk⟩)
          intro c hc
          exact hall c (List.mem_cons_of_mem _ hc)

theorem charThen_eq_true (target : Char) (k : List Char → Bool) :
    ∀ l : List Char, charThen target k l = true ↔
      ∃ rest, l = target :: rest ∧ k rest = true := by
  intro l
  cases l with
  | nil => simp [charThen]
  | cons ch rest =>
    rw [charThen, Bool.and_eq_true, beq_iff_eq]
    constructor
    · rintro ⟨rfl, hk⟩
      exact ⟨rest, rfl, hk⟩
    · rintro ⟨rest', heq, hk⟩
      simp only [List.cons.injEq] at heq
      obtain ⟨rfl, rfl⟩ := heq
      exact ⟨rfl, hk⟩

theorem emailAfterDot_iff (l : List Char) :
    emailAfterDot l = true ↔ l ≠ [] ∧ ∀ ch ∈ l, emailAtomChar ch = true := by
  rw [emailAfterDot, plusThen_eq_true]
  constructor
  · rintro ⟨l₁, l₂, rfl, hne, hall, hk⟩
    have h2 : l₂ = [] := List.isEmpty_iff.mp hk
    subst h2
    rw [List.append_nil]
    exact ⟨hne, hall⟩
  · rintro ⟨hne, hall⟩
    exact ⟨l, [], by simp, hne, hall, by simp⟩

theorem emailDomain_iff (l : List Char) :
    emailDomain l = true ↔
      ∃ b c, l = b ++ '.' :: c ∧ b ≠ [] ∧ c ≠ [] ∧
        (∀ ch ∈ b, emailAtomChar ch = true) ∧ (∀ ch ∈ c, emailAtomChar ch = true) := by
  rw [emailDomain, plusThen_eq_true]
  constructor
  · rintro ⟨b, l₂, rfl, hb, hallb, hk⟩
    rw [charThen_eq_true] at hk
    obtain ⟨more, rfl, hmore⟩ := hk
    rw [emailAfterDot_iff] at hmore
    exact ⟨b, more, rfl, hb, hmore.1, hallb, hmore.2⟩
  · rintro ⟨b, c, rfl, hb, hc, hallb, hallc⟩
    refine ⟨b, '.' :: c, rfl, hb, hallb, ?_⟩
    rw [charThen_eq_true]
    exact ⟨c, rfl, (emailAfterDot_iff c).mpr ⟨hc, hallc⟩⟩

theorem emailRegexTest_iff (l : List Char) :
    emailRegexTest l = true ↔
      ∃ a b c, l = a ++ '@' :: (b ++ '.' :: c) ∧ a ≠ [] ∧ b ≠ [] ∧ c ≠ [] ∧
        (∀ ch ∈ a, emailAtomChar ch = true) ∧ (∀ ch ∈ b, emailAtomChar ch = true) ∧
        (∀ ch ∈ c, emailAtomChar ch = true) := by
  rw [emailRegexTest, plusThen_eq_true]
  constructor
  · rintro ⟨a, l₂, rfl, ha, halla, hk⟩
    rw [charThen_eq_true] at hk
    obtain ⟨more, rfl, hmore⟩ := hk
    rw [emailDomain_iff] at hmore
    obtain ⟨b, c, rfl, hb, hc, hallb, hallc⟩ := hmore
    exact ⟨a, b, c, rfl, ha, hb, hc, halla, hallb, hallc⟩
  · rintro ⟨a, b, c, rfl, ha, hb, hc, halla, hallb, hallc⟩
    refine ⟨a, '@' :: (b ++ '.' :: c), rfl, ha, halla, ?_⟩
    rw [charThen_eq_true]
    refine ⟨b ++ '.' :: c, rfl, ?_⟩
    rw [emailDomain_iff]
    exact ⟨b, c, rfl, hb, hc, hallb, hallc⟩

theorem takeWhile_of_append {p : Char → Bool} :
    ∀ (a : List Char) (y : Char) (r : List Char), (∀ x ∈ a, p x = true) → p y = false →
      ((a ++ y :: r).takeWhile p = a ∧ (a ++ y :: r).dropWhile p = y :: r) := by
  intro a
  induction a with
  | nil =>
    intro y r _ hy
    constructor <;> simp [List.takeWhile_cons, List.dropWhile_cons, hy]
  | cons x a2 ih =>
    intro y r hall hy
    have hx : p x = true := hall x (List.mem_cons_self _ _)
    have hrec := ih y r (fun z hz => hall z (List.mem_cons_of_mem _ hz)) hy
    constructor <;>
      simp [List.takeWhile_cons, List.dropWhile_cons, hx, hrec.1, hrec.2]

theorem dropWhile_at_mem :
    ∀ l : List Char, '@' ∈ l →
      ∃ r, l.dropWhile (fun ch => !(ch == '@')) = '@' :: r := by
  intro l
  induction l with
  | nil => intro h; simp at h
  | cons x xs ih =>
    intro h
    by_cases hx : x = '@'
    · subst hx
      exact ⟨xs, by simp [List.dropWhile_cons]⟩
    · have hmem : '@' ∈ xs := by
        rcases List.mem_cons.mp h with h1 | h1
        · exact absurd h1.symm hx
        · exact h1
      obtain ⟨r, hr⟩ := ih hmem
      refine ⟨r, ?_⟩
      rw [List.dropWhile_cons]
      simpa [hx] using hr

theorem mem_dropLast_split {x : Char} :
    ∀ t : List Char, x ∈ t.dropLast → ∃ u v, t = u ++ x :: v ∧ v ≠ [] := by
  intro t
  induction t with
  | nil => intro h; simp at h
  | cons y tl ih =>
    intro h
    cases tl with
    | nil => simp [List.dropLast] at h
    | cons y2 tl2 =>
      have hd : (y :: y2 :: tl2).dropLast = y :: (y2 :: tl2).dropLast := rfl
      rw [hd] at h
      rcases List.mem_cons.mp h with h1 | h2
      · exact ⟨[], y2 :: tl2, by simp [h1], by simp⟩
      · obtain ⟨u, v, heq, hv⟩ := ih h2
        exact ⟨y :: u, v, by simp [heq], hv⟩

theorem emailRegexTest_eq_amended (l : List Char) :
    emailRegexTest l = emailAmendedCore l := by
  rw [Bool.eq_iff_iff, emailRegexTest_iff]
  constructor
  · rintro ⟨a, b, c, rfl, ha, hb, hc, halla, hallb, hallc⟩
    have hatA : ∀ x ∈ a, (x == '@') = false := by
      intro x hx
      have h2 := halla x hx
      rw [emailAtomChar, Bool.and_eq_true] at h2
      simpa using h2.2
    have hcA : List.count '@' a = 0 := by
      rw [List.count_eq_zero]
      intro hmem
      exact absurd (hatA '@' hmem) (by simp)
    have hcB : List.count '@' b = 0 := by
      rw [List.count_eq_zero]
      intro hmem
      have h2 := hallb '@' hmem
      rw [emailAtomChar, Bool.and_eq_true] at h2
      simpa using h2.2
    have hcC : List.count '@' c = 0 := by
      rw [List.count_eq_zero]
      intro hmem
      have h2 := hallc '@' hmem
      rw [emailAtomChar, Bool.and_eq_true] at h2
      simpa using h2.2
    have hallws : ((a ++ '@' :: (b ++ '.' :: c)).all (fun ch => !ch.isWhitespace)) = true := by
      rw [List.all_eq_true]
      intro ch hch
      have hor : ch ∈ a ∨ ch = '@' ∨ ch ∈ b ∨ ch = '.' ∨ ch ∈ c := by
        simpa [List.mem_append, List.mem_cons, or_assoc] using hch
      have hws : ∀ x, emailAtomChar x = true → (!x.isWhitespace) = true := by
        intro x h2
        rw [emailAtomChar, Bool.and_eq_true] at h2
        exact h2.1
      rcases hor with h2 | rfl | h2 | rfl | h2
      · exact hws ch (halla ch h2)
      · decide
      · exact hws ch (hallb ch h2)
      · decide
      · exact hws ch (hallc ch h2)
    have hcount : List.count '@' (a ++ '@' :: (b ++ '.' :: c)) = 1 := by
      have hd1 : ((('.' : Char)) == '@') = false := by decide
      simp [List.count_append, List.count_cons, hcA, hcB, hcC, hd1]
    have hsplit := takeWhile_of_append (p := fun ch => !(ch == '@')) a '@' (b ++ '.' :: c)
      (fun x hx => by simp [hatA x hx]) (by simp)
    have hie : a.isEmpty = false := by
      cases a with
      | nil => exact absurd rfl ha
      | cons x xs => rfl
    cases b with
    | nil => exact absurd rfl hb
    | cons b0 b2 =>
    cases c with
    | nil => exact absurd rfl hc
    | cons c0 c2 =>
    have hdl : ('.' :: c0 :: c2).dropLast = '.' :: (c0 :: c2).dropLast := rfl
    have hne : ('.' :: c0 :: c2) ≠ [] := by simp
    have hdrop2 : ((('@' :: ((b0 :: b2) ++ '.' :: c0 :: c2)).drop 1).drop 1) =
        b2 ++ '.' :: c0 :: c2 := rfl
    simp only [emailAmendedCore]
    rw [hallws, hcount, hsplit.1, hsplit.2, hie, hdrop2,
      List.dropLast_append_of_ne_nil b2 hne, hdl]
    simp
  · intro h
    simp only [emailAmendedCore, Bool.and_eq_true] at h
    obtain ⟨⟨⟨hws, hcnt⟩, htk⟩, hdot⟩ := h
    have hcnt1 : List.count '@' l = 1 := by simpa using hcnt
    have hmem : '@' ∈ l := List.count_pos_iff.mp (by omega)
    obtain ⟨r, hr⟩ := dropWhile_at_mem l hmem
    have hsplit : l = l.takeWhile (fun ch => !(ch == '@')) ++ '@' :: r := by
      conv_lhs => rw [← List.takeWhile_append_dropWhile (fun ch => !(ch == '@')) l]
      rw [hr]
    rw [List.all_eq_true] at hws
    have haNe : l.takeWhile (fun ch => !(ch == '@')) ≠ [] := by
      intro hnil
      rw [hnil] at htk
      simp at htk
    have hallA : ∀ x ∈ l.takeWhile (fun ch => !(ch == '@')), emailAtomChar x = true := by
      intro x hx
      have hx2 := List.mem_takeWhile_imp hx
      have hxl : x ∈ l := by
        rw [hsplit]
        exact List.mem_append.mpr (Or.inl hx)
      rw [emailAtomChar, Bool.and_eq_true]
      exact ⟨by simp [hws x hxl], hx2⟩
    have hcr : List.count '@' r = 0 := by
      have h2 := hcnt1
      rw [hsplit, List.count_append, List.count_cons] at h2
      simp only [beq_self_eq_true, if_true] at h2
      omega
    have hatr : '@' ∉ r := by
      intro hm
      have h2 : 0 < List.count '@' r := List.count_pos_iff.mpr hm
      omega
    rw [hr] at hdot
    simp only [List.drop_succ_cons, List.drop_zero] at hdot
    cases r with
    | nil => simp at hdot
    | cons d0 dtl =>
      simp only [List.drop_succ_cons, List.drop_zero] at hdot
      have hdotmem : '.' ∈ dtl.dropLast := by simpa using hdot
      obtain ⟨u, v, hdtl, hv⟩ := mem_dropLast_split dtl hdotmem
      have hmemr : ∀ x, x ∈ d0 :: u ∨ x ∈ v → x ∈ d0 :: dtl := by
        intro x hx
        rcases hx with hx | hx
        · rcases List.mem_cons.mp hx with rfl | hxu
          · exact List.mem_cons_self _ _
          · refine List.mem_cons_of_mem _ ?_
            rw [hdtl]
            exact List.mem_append.mpr (Or.inl hxu)
        · refine List.mem_cons_of_mem _ ?_
          rw [hdtl]
          exact List.mem_append.mpr (Or.inr (List.mem_cons_of_mem _ hx))
      have hatomr : ∀ x ∈ d0 :: dtl, emailAtomChar x = true := by
        intro x hx
        have hxl : x ∈ l := by
          rw [hsplit]
          exact List.mem_append.mpr (Or.inr (List.mem_cons_of_mem _ hx))
        have hxat : (x == '@') = false := by
          cases hxeq : (x == '@') with
          | false => rfl
          | true => exact absurd (eq_of_beq hxeq ▸ hx) hatr
        rw [emailAtomChar, Bool.and_eq_true]
        exact ⟨by simp [hws x hxl], by simp [hxat]⟩
      refine ⟨l.takeWhile (fun ch => !(ch == '@')), d0 :: u, v, ?_, haNe, by simp, hv,
        hallA, ?_, ?_⟩
      · conv_lhs => rw [hsplit]
        rw [hdtl]
        simp
      · intro x hx
        exact hatomr x (hmemr x (Or.inl hx))
      · intro x hx
        exact hatomr x (hmemr x (Or.inr hx))

/-- C9: the claim's characterization (at least one dot anywhere in the
domain) is not equivalent to the regex: "a@b." satisfies it, yet
`isValidEmail` rejects it because the regex demands a character after
the dot. -/
theorem c9_email_counterexample :
    isValidEmail "a@b." = false ∧ emailClaimedValid "a@b." = true := by decide

/-- C9 (amended): `isValidEmail` accepts exactly the trimmed strings of
the form local@domain with no whitespace, exactly one at-sign, a
non-empty local part, and a dot interior to the domain (at least one
character between the at-sign and the dot and at least one after the
dot); "a@b" is invalid and "a@b.com" is valid. -/
theorem c9_email_amended :
    (∀ value : String, isValidEmail value = emailAmendedValid value) ∧
    isValidEmail "a@b" = false ∧ isValidEmail "a@b.com" = true := by
  refine ⟨fun value => ?_, by decide, by decide⟩
  rw [isValidEmail, emailAmendedValid]
  cases h : (jsTrim value == "") with
  | true =>
    have hempty : jsTrim value = "" := eq_of_beq h
    rw [hempty]
    decide
  | false =>
    simp only [h, Bool.false_eq_true, if_false]
    exact emailRegexTest_eq_amended _
